import Mathlib

set_option maxRecDepth 4096

/-!
Verification of `src/types/string.rs` (neo4rs): the PackStream-style
length-prefixed wire encoding of text values (`BoltString`).

Shallow embedding conventions:
* A byte sequence is a `List Nat` whose elements are the byte values
  (every byte produced by the Rust code is `< 256` by construction).
* A Rust `String` is represented by the list of its UTF-8 bytes; the
  Rust type invariant "a `String` holds valid UTF-8" becomes the
  predicate `utf8Valid` on that list.
* The shared cursor `Rc<RefCell<Bytes>>` is modelled by explicit state
  passing: a decoder consumes a prefix of the list and returns the
  remaining suffix.  The byte contents are never mutated by the Rust
  code (only the read position advances), so the suffix model is exact.
* Operations of the `bytes` crate that panic on insufficient input
  (`get_u8`, `get_u16`, `get_u32`, `split_to`, and slice indexing) are
  modelled by an explicit `panic` outcome (`DecodeOutcome.panic`,
  `Option.none` for `is_present`).
-/

namespace BoltStringCodec

/-- Marker constants from `string.rs`. -/
def TINY : Nat := 0x80

def SMALL : Nat := 0xD0

def MEDIUM : Nat := 0xD1

def LARGE : Nat := 0xD2

/-- The variants of the repository's `Error` enum used by `string.rs`.
`InvalidTypeMarker` carries the offending marker byte that the Rust code
formats into its detail string; the other detail strings are abstracted. -/
inductive Error where
  | stringTooLong
  | invalidTypeMarker (marker : Nat)
  | deserializationError
deriving DecidableEq

instance : DecidableEq (Except Error (List Nat)) := fun a b =>
  match a, b with
  | .ok x, .ok y => decidable_of_iff (x = y) (by simp)
  | .error x, .error y => decidable_of_iff (x = y) (by simp)
  | .ok _, .error _ => isFalse (by simp)
  | .error _, .ok _ => isFalse (by simp)

/-- `BoltString`: an owned text value, represented by its UTF-8 bytes. -/
structure BoltString where
  value : List Nat
deriving DecidableEq

/-- Is `b` a UTF-8 continuation byte (`0x80..=0xBF`)?  Part of the
validation performed by Rust's `String::from_utf8`. -/
def utf8Cont (b : Nat) : Bool :=
  decide (0x80 ≤ b ∧ b ≤ 0xBF)

/-- UTF-8 well-formedness of a byte list, as checked by Rust's
`String::from_utf8` (RFC 3629: no overlong forms, no surrogates, no code
points above U+10FFFF). -/
def utf8Valid : List Nat → Bool
  | [] => true
  | b :: rest =>
    if b ≤ 0x7F then utf8Valid rest
    else if 0xC2 ≤ b ∧ b ≤ 0xDF then
      match rest with
      | c1 :: r => utf8Cont c1 && utf8Valid r
      | [] => false
    else if b = 0xE0 then
      match rest with
      | c1 :: c2 :: r => decide (0xA0 ≤ c1 ∧ c1 ≤ 0xBF) && utf8Cont c2 && utf8Valid r
      | _ => false
    else if (0xE1 ≤ b ∧ b ≤ 0xEC) ∨ b = 0xEE ∨ b = 0xEF then
      match rest with
      | c1 :: c2 :: r => utf8Cont c1 && utf8Cont c2 && utf8Valid r
      | _ => false
    else if b = 0xED then
      match rest with
      | c1 :: c2 :: r => decide (0x80 ≤ c1 ∧ c1 ≤ 0x9F) && utf8Cont c2 && utf8Valid r
      | _ => false
    else if b = 0xF0 then
      match rest with
      | c1 :: c2 :: c3 :: r =>
        decide (0x90 ≤ c1 ∧ c1 ≤ 0xBF) && utf8Cont c2 && utf8Cont c3 && utf8Valid r
      | _ => false
    else if 0xF1 ≤ b ∧ b ≤ 0xF3 then
      match rest with
      | c1 :: c2 :: c3 :: r => utf8Cont c1 && utf8Cont c2 && utf8Cont c3 && utf8Valid r
      | _ => false
    else if b = 0xF4 then
      match rest with
      | c1 :: c2 :: c3 :: r =>
        decide (0x80 ≤ c1 ∧ c1 ≤ 0x8F) && utf8Cont c2 && utf8Cont c3 && utf8Valid r
      | _ => false
    else false

/-- `impl TryInto<Bytes> for BoltString` — the encoder.  Matches on
`self.value.len()` exactly as the Rust `match`: `0..=15` emits
`TINY | len`; `16..=255` emits `SMALL` and a 1-byte length; `256..=65535`
emits `MEDIUM` and a big-endian 2-byte length (`put_u16`);
`65536..=4294967295` emits `LARGE` and a big-endian 4-byte length
(`put_u32`); anything larger returns `Err(Error::StringTooLong)`.  The
payload bytes follow verbatim. -/
def try_into (s : BoltString) : Except Error (List Nat) :=
  let v := s.value
  if v.length ≤ 15 then
    .ok ((TINY ||| v.length) :: v)
  else if v.length ≤ 255 then
    .ok (SMALL :: v.length :: v)
  else if v.length ≤ 65535 then
    .ok (MEDIUM :: (v.length / 256) :: (v.length % 256) :: v)
  else if v.length ≤ 4294967295 then
    .ok (LARGE :: (v.length / 16777216 % 256) :: (v.length / 65536 % 256) ::
      (v.length / 256 % 256) :: (v.length % 256) :: v)
  else
    .error .stringTooLong

/-- Outcome of one decode call on the shared cursor: success or a
returned `Err` carry the not-yet-consumed suffix of the buffer; `panic`
models a Rust panic raised by the `bytes` crate on out-of-bounds reads. -/
inductive DecodeOutcome where
  | ok (value : BoltString) (rest : List Nat)
  | err (e : Error) (rest : List Nat)
  | panic
deriving DecidableEq

/-- Tail of the decoder after the payload length is known:
`input.split_to(length)` (panics when fewer than `length` bytes remain),
then `String::from_utf8` on the split-off bytes — `DeserializationError`
when they are not valid UTF-8, otherwise the decoded `BoltString`. -/
def finishDecode (length : Nat) (r : List Nat) : DecodeOutcome :=
  if r.length < length then .panic
  else if utf8Valid (r.take length) then .ok ⟨r.take length⟩ (r.drop length)
  else .err .deserializationError (r.drop length)

/-- `impl TryFrom<Rc<RefCell<Bytes>>> for BoltString` — the decoder.
Reads the marker with `get_u8` (panics on an empty buffer); markers
`0x80..=0x8F` embed the length in the low nibble (`0x0F & marker`);
`SMALL`, `MEDIUM` and `LARGE` read a 1-, 2- or 4-byte big-endian length
(`get_u8`/`get_u16`/`get_u32`, each panicking when too few bytes
remain); any other marker returns `Err(Error::InvalidTypeMarker)` with
only the marker byte consumed. -/
def try_from (bs : List Nat) : DecodeOutcome :=
  match bs with
  | [] => .panic
  | marker :: rest =>
    if 0x80 ≤ marker ∧ marker ≤ 0x8F then
      finishDecode (0x0F &&& marker) rest
    else if marker = SMALL then
      match rest with
      | [] => .panic
      | l :: r => finishDecode l r
    else if marker = MEDIUM then
      match rest with
      | h :: l :: r => finishDecode (h * 256 + l) r
      | _ => .panic
    else if marker = LARGE then
      match rest with
      | b0 :: b1 :: b2 :: b3 :: r =>
        finishDecode (((b0 * 256 + b1) * 256 + b2) * 256 + b3) r
      | _ => .panic
    else .err (.invalidTypeMarker marker) rest

/-- `is_present` from `string.rs`: reads `input.borrow()[0]` (so it
panics on an empty buffer, modelled by `none`) and reports whether the
first byte is in `TINY..=(TINY | 0x0F)` or equals `SMALL`, `MEDIUM` or
`LARGE`.  It is a pure read: the buffer and its read position are
untouched, which the embedding reflects by taking the buffer by value. -/
def is_present (input : List Nat) : Option Bool :=
  match input with
  | [] => none
  | marker :: _ =>
    some (decide (TINY ≤ marker ∧ marker ≤ (TINY ||| 0x0F)) ||
      marker == SMALL || marker == MEDIUM || marker == LARGE)

/-- The four size classes of the spec's table (section 4.1). -/
inductive SizeClass where
  | tiny
  | small
  | medium
  | large
deriving DecidableEq

/-- Width in bytes of the size field following the marker, per class. -/
def sizeFieldWidth : SizeClass → Nat
  | .tiny => 0
  | .small => 1
  | .medium => 2
  | .large => 4

/-- Largest payload length representable in each class's size field
(for Tiny, in the marker's low nibble). -/
def headerCap : SizeClass → Nat
  | .tiny => 15
  | .small => 255
  | .medium => 65535
  | .large => 4294967295

/-- The marker byte and big-endian size field announcing a payload of
`L` bytes in class `c` (meaningful when `L ≤ headerCap c`), exactly as
the wire format lays them out. -/
def header (c : SizeClass) (L : Nat) : List Nat :=
  match c with
  | .tiny => [TINY ||| L]
  | .small => [SMALL, L]
  | .medium => [MEDIUM, L / 256, L % 256]
  | .large => [LARGE, L / 16777216 % 256, L / 65536 % 256, L / 256 % 256, L % 256]

/-- The size-class selection table as written in the spec (section 4.1):
Tiny for 0–15, Small for 16–255, Medium for 256–65 535, Large for
65 536–4 294 967 295, nothing above that.  Stated from the spec's words
so that the encoder's own class selection can be compared against it. -/
def specSizeClass (L : Nat) : Option SizeClass :=
  if L ≤ 15 then some .tiny
  else if L ≤ 255 then some .small
  else if L ≤ 65535 then some .medium
  else if L ≤ 4294967295 then some .large
  else none

/-! ### Helper lemmas -/

theorem tiny_bits : ∀ L < 16, 128 ||| L = 128 + L ∧ 15 &&& (128 + L) = L := by
  decide

theorem finishDecode_append (payload rest : List Nat) :
    finishDecode payload.length (payload ++ rest) =
      if utf8Valid payload then .ok ⟨payload⟩ rest
      else .err .deserializationError rest := by
  have h1 : ¬ (payload ++ rest).length < payload.length := by
    simp [List.length_append]
  rw [finishDecode, if_neg h1, List.take_left, List.drop_left]

theorem try_from_header (c : SizeClass) (L : Nat) (hL : L ≤ headerCap c)
    (tail : List Nat) :
    try_from (header c L ++ tail) = finishDecode L tail := by
  cases c with
  | tiny =>
    have h16 : L < 16 := by
      simp only [headerCap] at hL
      omega
    obtain ⟨hor, hand⟩ := tiny_bits L h16
    have hcond : 0x80 ≤ 128 ||| L ∧ 128 ||| L ≤ 0x8F := by
      rw [hor]; omega
    simp only [header, List.cons_append, List.nil_append, try_from, TINY,
      if_pos hcond]
    rw [hor, hand]
  | small =>
    have hc1 : ¬ (0x80 ≤ 0xD0 ∧ (0xD0 : Nat) ≤ 0x8F) := by omega
    simp [header, try_from, SMALL, hc1]
  | medium =>
    have hc1 : ¬ (0x80 ≤ 0xD1 ∧ (0xD1 : Nat) ≤ 0x8F) := by omega
    have hrec : L / 256 * 256 + L % 256 = L := by omega
    simp [header, try_from, SMALL, MEDIUM, hc1, hrec]
  | large =>
    have hc1 : ¬ (0x80 ≤ 0xD2 ∧ (0xD2 : Nat) ≤ 0x8F) := by omega
    have hcap : L ≤ 4294967295 := hL
    have hrec : ((L / 16777216 % 256 * 256 + L / 65536 % 256) * 256 +
        L / 256 % 256) * 256 + L % 256 = L := by omega
    simp [header, try_from, SMALL, MEDIUM, LARGE, hc1, hrec]

theorem try_from_frame (c : SizeClass) (L : Nat) (payload rest : List Nat)
    (hL : L ≤ headerCap c) (hp : payload.length = L) :
    try_from (header c L ++ (payload ++ rest)) =
      if utf8Valid payload then .ok ⟨payload⟩ rest
      else .err .deserializationError rest := by
  rw [try_from_header c L hL, ← hp, finishDecode_append]

theorem try_into_class (s : BoltString) (c : SizeClass)
    (h : specSizeClass s.value.length = some c) :
    try_into s = .ok (header c s.value.length ++ s.value) := by
  unfold specSizeClass at h
  split_ifs at h with h1 h2 h3 h4
  · injection h with h
    subst h
    simp [try_into, header, h1]
  · injection h with h
    subst h
    simp [try_into, header, h1, h2]
  · injection h with h
    subst h
    simp [try_into, header, h1, h2, h3]
  · injection h with h
    subst h
    simp [try_into, header, h1, h2, h3, h4]

theorem specSizeClass_cap (L : Nat) (c : SizeClass)
    (h : specSizeClass L = some c) : L ≤ headerCap c := by
  unfold specSizeClass at h
  split_ifs at h with h1 h2 h3 h4
  · injection h with h
    subst h
    exact h1
  · injection h with h
    subst h
    exact h2
  · injection h with h
    subst h
    exact h3
  · injection h with h
    subst h
    exact h4

theorem specSizeClass_total (L : Nat) (h : L ≤ 4294967295) :
    ∃ c, specSizeClass L = some c := by
  unfold specSizeClass
  split_ifs <;> simp_all

theorem finishDecode_panic_iff (n : Nat) (r : List Nat) :
    finishDecode n r = .panic ↔ r.length < n := by
  unfold finishDecode
  split_ifs <;> simp_all

/-- The inputs on which the decoder's reads on the `bytes` buffer go out
of bounds: no marker byte at all, too few bytes for the size field the
marker demands, or fewer remaining bytes than the declared payload
length. -/
def hasUnderflow : List Nat → Bool
  | [] => true
  | marker :: rest =>
    if 0x80 ≤ marker ∧ marker ≤ 0x8F then
      decide (rest.length < 0x0F &&& marker)
    else if marker = SMALL then
      match rest with
      | [] => true
      | l :: r => decide (r.length < l)
    else if marker = MEDIUM then
      match rest with
      | h :: l :: r => decide (r.length < h * 256 + l)
      | _ => true
    else if marker = LARGE then
      match rest with
      | b0 :: b1 :: b2 :: b3 :: r =>
        decide (r.length < ((b0 * 256 + b1) * 256 + b2) * 256 + b3)
      | _ => true
    else false

/-! ### Claim theorems -/

/-- C1: Round-trip — for every text value whose UTF-8 byte length is at
most 4 294 967 295, decoding the bytes produced by encoding it succeeds,
returns an equal text value, and consumes the whole encoding. -/
theorem c1_roundtrip (s : BoltString) (hv : utf8Valid s.value = true)
    (hL : s.value.length ≤ 4294967295) :
    ∃ w, try_into s = .ok w ∧ try_from w = .ok s [] := by
  obtain ⟨c, hc⟩ := specSizeClass_total s.value.length hL
  refine ⟨header c s.value.length ++ s.value, try_into_class s c hc, ?_⟩
  have h2 := try_from_frame c s.value.length s.value []
    (specSizeClass_cap _ _ hc) rfl
  rw [List.append_nil] at h2
  rw [h2, hv]
  simp

theorem c1_roundtrip_witness :
    ∃ w, try_into ⟨[0x61]⟩ = .ok w ∧ try_from w = .ok ⟨[0x61]⟩ [] :=
  c1_roundtrip ⟨[0x61]⟩ (by decide) (by decide)

/-- C2: Size-class boundary exactness — the encoder selects exactly the
size class of the spec's table for the value's byte length (emitting the
tabulated marker and big-endian size field, `header`), and the table
routes the boundary lengths 15, 16, 255, 256, 65 535, 65 536 to Tiny,
Small, Small, Medium, Medium, Large respectively. -/
theorem c2_size_class_table :
    (∀ (s : BoltString) (c : SizeClass), specSizeClass s.value.length = some c →
      try_into s = .ok (header c s.value.length ++ s.value)) ∧
    specSizeClass 15 = some .tiny ∧ specSizeClass 16 = some .small ∧
    specSizeClass 255 = some .small ∧ specSizeClass 256 = some .medium ∧
    specSizeClass 65535 = some .medium ∧ specSizeClass 65536 = some .large :=
  ⟨try_into_class, by decide, by decide, by decide, by decide, by decide,
    by decide⟩

theorem c2_size_class_table_witness :
    try_into ⟨[0x61]⟩ = .ok (header .tiny 1 ++ [0x61]) :=
  c2_size_class_table.1 ⟨[0x61]⟩ .tiny (by decide)

/-- C3 counterexample: a cursor with too few remaining bytes does NOT
produce an error result — decoding `[0xD0]` (size field missing) and
`[0x85]` (payload missing) panics, refuting the claim that underflow is
surfaced as a recoverable decode failure. -/
theorem c3_counterexample_underflow :
    try_from [0xD0] = .panic ∧ try_from [0x85] = .panic := by
  decide

/-- C3 (amended): cursor underflow makes the decoder panic (the `bytes`
crate's `get_u8`/`get_u16`/`get_u32`/`split_to` panic on out-of-bounds
reads) rather than return an error result; decoding panics exactly when
the input is too short for the marker's size field or for the declared
payload length. -/
theorem c3_amended_underflow_panics (bs : List Nat) :
    try_from bs = .panic ↔ hasUnderflow bs = true := by
  match bs with
  | [] => simp [try_from, hasUnderflow]
  | marker :: rest =>
    simp only [try_from, hasUnderflow]
    split_ifs with h1 h2 h3 h4
    · simp [finishDecode_panic_iff]
    · rcases rest with _ | ⟨a, r⟩ <;> simp [finishDecode_panic_iff]
    · rcases rest with _ | ⟨a, _ | ⟨b, r⟩⟩ <;> simp [finishDecode_panic_iff]
    · rcases rest with _ | ⟨a, _ | ⟨b, _ | ⟨c, _ | ⟨d, r⟩⟩⟩⟩ <;>
        simp [finishDecode_panic_iff]
    · simp

theorem c3_amended_witness : try_from [0xD2, 0x00, 0x00] = .panic :=
  (c3_amended_underflow_panics [0xD2, 0x00, 0x00]).mpr (by decide)

/-- C4: Invalid marker rejection — when the first byte is no string
marker, decoding returns `InvalidTypeMarker` carrying that byte, and the
cursor retains everything after the one marker byte. -/
theorem c4_invalid_marker (marker : Nat) (rest : List Nat)
    (_hb : marker < 256) (h1 : ¬ (0x80 ≤ marker ∧ marker ≤ 0x8F))
    (h2 : marker ≠ 0xD0) (h3 : marker ≠ 0xD1) (h4 : marker ≠ 0xD2) :
    try_from (marker :: rest) = .err (.invalidTypeMarker marker) rest := by
  simp [try_from, SMALL, MEDIUM, LARGE, h1, h2, h3, h4]

theorem c4_invalid_marker_witness :
    try_from [0x42, 0x01, 0x02] = .err (.invalidTypeMarker 0x42) [0x01, 0x02] :=
  c4_invalid_marker 0x42 [0x01, 0x02] (by decide) (by decide) (by decide)
    (by decide) (by decide)

/-- C5: Length overflow on encode — a text value longer than
4 294 967 295 bytes makes `try_into` return `StringTooLong` (an `Err`
carries no wire bytes, so no partial output exists); any value of at
most that length encodes successfully. -/
theorem c5_encode_length_bounds (s : BoltString) :
    (4294967295 < s.value.length → try_into s = .error .stringTooLong) ∧
    (s.value.length ≤ 4294967295 → ∃ w, try_into s = .ok w) := by
  constructor
  · intro h
    have h1 : ¬ s.value.length ≤ 15 := by omega
    have h2 : ¬ s.value.length ≤ 255 := by omega
    have h3 : ¬ s.value.length ≤ 65535 := by omega
    have h4 : ¬ s.value.length ≤ 4294967295 := by omega
    simp [try_into, h1, h2, h3, h4]
  · intro h
    obtain ⟨c, hc⟩ := specSizeClass_total _ h
    exact ⟨_, try_into_class s c hc⟩

theorem c5_encode_length_bounds_witness :
    try_into ⟨List.replicate 4294967296 0⟩ = .error .stringTooLong ∧
    ∃ w, try_into ⟨[]⟩ = .ok w := by
  constructor
  · apply (c5_encode_length_bounds ⟨List.replicate 4294967296 0⟩).1
    show (4294967295 : Nat) < (List.replicate 4294967296 (0 : Nat)).length
    rw [List.length_replicate]
    norm_num
  · exact (c5_encode_length_bounds ⟨[]⟩).2 (by decide)

/-- C6: UTF-8 validation of the payload — a well-formed length-prefixed
frame decodes to `DeserializationError` when its payload bytes are not
valid UTF-8, and to the text value built from exactly those payload
bytes when they are. -/
theorem c6_utf8_validation (c : SizeClass) (L : Nat) (payload rest : List Nat)
    (hL : L ≤ headerCap c) (hp : payload.length = L) :
    (utf8Valid payload = false →
      try_from (header c L ++ (payload ++ rest)) =
        .err .deserializationError rest) ∧
    (utf8Valid payload = true →
      try_from (header c L ++ (payload ++ rest)) = .ok ⟨payload⟩ rest) := by
  have h := try_from_frame c L payload rest hL hp
  constructor
  · intro hv
    rw [h, hv]
    simp
  · intro hv
    rw [h, hv]
    simp

theorem c6_utf8_validation_witness :
    try_from (header .small 1 ++ ([0xC0] ++ [])) =
      .err .deserializationError [] ∧
    try_from (header .tiny 1 ++ ([0x61] ++ [])) = .ok ⟨[0x61]⟩ [] :=
  ⟨(c6_utf8_validation .small 1 [0xC0] [] (by decide) (by decide)).1 (by decide),
   (c6_utf8_validation .tiny 1 [0x61] [] (by decide) (by decide)).2 (by decide)⟩

/-- C7: Detection predicate — on any buffer with a first byte,
`is_present` answers `true` exactly when that byte is in `0x80..=0x8F`
or is `0xD0`, `0xD1` or `0xD2`; it is a pure read that consumes nothing
(the model takes the buffer by value and returns only the flag). -/
theorem c7_is_present_iff (marker : Nat) (rest : List Nat) :
    is_present (marker :: rest) = some true ↔
      ((0x80 ≤ marker ∧ marker ≤ 0x8F) ∨ marker = 0xD0 ∨ marker = 0xD1 ∨
        marker = 0xD2) := by
  simp only [is_present, TINY, SMALL, MEDIUM, LARGE, Option.some.injEq,
    Bool.or_eq_true, decide_eq_true_eq, beq_iff_eq]
  tauto

theorem c7_is_present_iff_witness : is_present [0xD1, 0x00] = some true :=
  (c7_is_present_iff 0xD1 [0x00]).mpr (by norm_num)

/-- C8: Concrete wire encodings — the empty text, "a", and 16-, 256- and
65 536-byte repetitions of 'a' (byte 0x61) produce exactly the marker,
big-endian size field and verbatim payload bytes tabulated in the spec.
Lengths are byte counts of the UTF-8 representation by construction of
the embedding (a text value is its UTF-8 byte list). -/
theorem c8_concrete_encodings :
    try_into ⟨[]⟩ = .ok [0x80] ∧
    try_into ⟨[0x61]⟩ = .ok [0x81, 0x61] ∧
    try_into ⟨List.replicate 16 0x61⟩ =
      .ok (0xD0 :: 0x10 :: List.replicate 16 0x61) ∧
    try_into ⟨List.replicate 256 0x61⟩ =
      .ok (0xD1 :: 0x01 :: 0x00 :: List.replicate 256 0x61) ∧
    try_into ⟨List.replicate 65536 0x61⟩ =
      .ok (0xD2 :: 0x00 :: 0x01 :: 0x00 :: 0x00 ::
        List.replicate 65536 0x61) := by
  refine ⟨by decide, by decide, by decide, ?_, ?_⟩
  · have hlen : (⟨List.replicate 256 0x61⟩ : BoltString).value.length = 256 :=
      List.length_replicate _ _
    have h := try_into_class ⟨List.replicate 256 0x61⟩ .medium
      (by rw [hlen]; decide)
    rw [h, hlen]
    have hhd : header .medium 256 = [0xD1, 0x01, 0x00] := by
      norm_num [header, MEDIUM]
    rw [hhd]
    rfl
  · have hlen : (⟨List.replicate 65536 0x61⟩ : BoltString).value.length = 65536 :=
      List.length_replicate _ _
    have h := try_into_class ⟨List.replicate 65536 0x61⟩ .large
      (by rw [hlen]; decide)
    rw [h, hlen]
    have hhd : header .large 65536 = [0xD2, 0x00, 0x01, 0x00, 0x00] := by
      norm_num [header, LARGE]
    rw [hhd]
    rfl

/-- C9: Exact cursor advance — decoding a well-formed frame followed by
arbitrary trailing bytes succeeds, hands back exactly the trailing bytes
as the remaining cursor contents (unread and unmodified: the model never
rebuilds them), and the consumed prefix is exactly
1 (marker) + size-field width + payload length bytes long. -/
theorem c9_cursor_advance (c : SizeClass) (L : Nat) (payload rest : List Nat)
    (hL : L ≤ headerCap c) (hp : payload.length = L)
    (hv : utf8Valid payload = true) :
    try_from (header c L ++ (payload ++ rest)) = .ok ⟨payload⟩ rest ∧
    (header c L ++ (payload ++ rest)).length =
      (1 + sizeFieldWidth c + L) + rest.length := by
  constructor
  · rw [try_from_frame c L payload rest hL hp, hv]
    simp
  · have hh : (header c L).length = 1 + sizeFieldWidth c := by
      cases c <;> simp [header, sizeFieldWidth]
    simp only [List.length_append, hh, hp]
    omega

theorem c9_cursor_advance_witness :
    try_from (header .tiny 1 ++ ([0x61] ++ [0x05, 0x06])) =
      .ok ⟨[0x61]⟩ [0x05, 0x06] ∧
    (header .tiny 1 ++ ([0x61] ++ [0x05, 0x06])).length =
      (1 + sizeFieldWidth .tiny + 1) + [0x05, 0x06].length :=
  c9_cursor_advance .tiny 1 [0x61] [0x05, 0x06] (by decide) (by decide)
    (by decide)

/-- C10: `is_present` reads index 0 unconditionally, so it is undefined
(panics, modelled by `none`) on an empty buffer; on any non-empty buffer
it returns a value that depends only on the first byte. -/
theorem c10_is_present_empty_panics :
    is_present [] = none ∧
    ∀ (marker : Nat) (rest : List Nat),
      is_present (marker :: rest) = is_present [marker] ∧
        is_present (marker :: rest) ≠ none := by
  refine ⟨rfl, fun marker rest => ⟨rfl, ?_⟩⟩
  simp [is_present]

end BoltStringCodec
